import Mathlib

/-!
# DBServer: record store and connection handler

A shallow embedding of `src/dbserver.c` (`handle_put`, `check_duplicate`,
`handle_get`, `send_msg`, `HandleClient`).

* The backing file `database.dat` is a byte string (or absent); a `struct record`
  is the block of `sizeof(struct record)` bytes that `read` and `write` move.
* The outcome of every system call the code branches on is supplied by the
  caller of the model (`Env` for the file, `SockWrite` / `SockRead` for the
  socket), so every branch of the source can be taken.
* `printf` logging is not modelled.
-/

namespace DBServer

/-! ## Declarations of `msg.h` -/

/-- Modelled from the spec: `msg.h` is not among the sources; message type tag `PUT = 1`. -/
def PUT : Nat := 1

/-- Modelled from the spec: `msg.h` is not among the sources; message type tag `GET = 2`. -/
def GET : Nat := 2

/-- Modelled from the spec: `msg.h` is not among the sources; message type tag `SUCCESS = 3`. -/
def SUCCESS : Nat := 3

/-- Modelled from the spec: `msg.h` is not among the sources; message type tag `FAIL = 4`. -/
def FAIL : Nat := 4

/-- Modelled from the spec: `msg.h` is not among the sources; the layout of `struct record`.
The spec gives a 4-byte unsigned `id` in the byte order of the deployment and a 128-byte
`name`; where the fields sit in the block and how much padding follows is left open here. -/
structure Layout where
  /-- Offset of the 4-byte `id` field. -/
  idOff : Nat
  /-- Offset of the 128-byte `name` field. -/
  nameOff : Nat
  /-- Bytes of the block after the later of the two fields (the `pad` member). -/
  tail : Nat
  /-- Byte order of `id`: most significant byte first when `true`. -/
  bigEndian : Bool
deriving DecidableEq

/-- Modelled from the spec: `msg.h` is not among the sources; the value of
`sizeof(struct record)`. The block holds both fields and the padding. -/
def Layout.recSize (L : Layout) : Nat :=
  max (L.idOff + 4) (L.nameOff + 128) + L.tail

/-- Unsigned integer held by a run of bytes in the given byte order. -/
def ofBytes (bigEndian : Bool) (bs : List Nat) : Nat :=
  if bigEndian then bs.foldl (fun acc b => acc * 256 + b) 0
  else bs.foldr (fun b acc => b + 256 * acc) 0

/-- Modelled from the spec: `msg.h` is not among the sources; the member `id` of a
record block, a 4-byte unsigned integer. -/
def idOf (L : Layout) (rd : List Nat) : Nat :=
  ofBytes L.bigEndian ((rd.drop L.idOff).take 4)

/-- Modelled from the spec: `msg.h` is not among the sources; the member `name` of a
record block, 128 bytes. -/
def nameOf (L : Layout) (rd : List Nat) : List Nat :=
  (rd.drop L.nameOff).take 128

/-- A record block as `memset(.., 0, ..)` leaves it. -/
def zeroRecord (L : Layout) : List Nat :=
  List.replicate L.recSize 0

/-- Modelled from the spec: `msg.h` is not among the sources; `struct msg`, a type tag
and a record block. -/
structure msg where
  type : Nat
  rd : List Nat
deriving DecidableEq

/-- Modelled from the spec: `msg.h` is not among the sources; the bytes of a message,
the one-byte type tag followed by the record block. -/
def msg.bytes (m : msg) : List Nat :=
  m.type :: m.rd

/-! ## The environment -/

/-- Outcome of one `write` call on the client socket. -/
inductive SockWrite where
  /-- The call returned -1 with `errno == EINTR`. -/
  | intr
  /-- The call returned -1 with another `errno`. -/
  | error
  /-- The call transferred up to `n` bytes. -/
  | wrote (n : Nat)
deriving DecidableEq

/-- Client side of one connection as the handler sees it. -/
structure Conn where
  /-- Responses built by `send_msg`, oldest first: one entry per call. -/
  sent : List msg
  /-- Bytes that reached the socket. -/
  wire : List Nat
  /-- Outcomes of the coming `write` calls on the socket; once exhausted every
  call transfers all it is given. -/
  sock : List SockWrite
  /-- Whether `close(client_fd)` ran. -/
  closed : Bool
deriving DecidableEq

/-- State the handlers act on: the backing file and one connection. -/
structure World where
  /-- Contents of `database.dat`; `none` when the file does not exist. -/
  db : Option (List Nat)
  conn : Conn
deriving DecidableEq

/-- Outcomes of the file system calls made while one request is handled. -/
structure Env where
  /-- Whether `open(DB_FILE, O_WRONLY | O_CREAT | O_APPEND, 0644)` returns a descriptor. -/
  openAppend : Bool
  /-- Whether `open(DB_FILE, O_RDONLY)` returns a descriptor when the file exists. -/
  openRead : Bool
  /-- With `some k`, the scan's `read` call number `k` (counted from 0) returns -1. -/
  readFail : Option Nat
  /-- Result of `write` on the file: `none` for -1, `some n` when up to `n` bytes
  of the record are transferred. -/
  written : Option Nat
deriving DecidableEq

/-- Whether every file operation succeeds: both `open` calls return a descriptor, no
`read` returns -1, and `write` returns `sizeof(struct record)`, the test `handle_put`
applies to it. -/
def Env.ok (L : Layout) (e : Env) : Bool :=
  e.openAppend && e.openRead && e.readFail.isNone &&
    (match e.written with
     | some n => decide (L.recSize ≤ n)
     | none => false)

/-- The environment without faults. -/
def Env.good (L : Layout) : Env :=
  { openAppend := true, openRead := true, readFail := none, written := some L.recSize }

/-! ## Reading the backing file -/

/-- First `k` consecutive blocks of `n` bytes. -/
def blocksAux (n : Nat) : Nat → List Nat → List (List Nat)
  | 0, _ => []
  | k + 1, bs => bs.take n :: blocksAux n k (bs.drop n)

/-- Blocks that successive `read(fd, &temp, sizeof(struct record))` calls return in
full: as many as the file length allows; a shorter remainder ends the scan. -/
def blocks (L : Layout) (bytes : List Nat) : List (List Nat) :=
  blocksAux L.recSize (bytes.length / L.recSize) bytes

/-- Blocks the scan loop gets to see: reading stops at the first `read` that
does not return a full record, be it end of file or a failing call. -/
def reads (L : Layout) (e : Env) (bytes : List Nat) : List (List Nat) :=
  match e.readFail with
  | none => blocks L bytes
  | some k => (blocks L bytes).take k

/-! ## `send_msg` -/

/-- The response `send_msg` builds: zeroed, then the type, then the record when one
is given and the type is `SUCCESS`. -/
def mk_response (L : Layout) (type : Nat) (rd : Option (List Nat)) : msg :=
  let response : msg := { type := 0, rd := zeroRecord L }
  let response := { response with type := type }
  match rd with
  | some r => if type = SUCCESS then { response with rd := r } else response
  | none => response

/-- The transfer loop of `send_msg`: `total_written` counts the bytes already sent;
returns the bytes put on the socket and the socket outcomes not yet used. -/
def write_loop (buf : List Nat) : List SockWrite → Nat → List Nat × List SockWrite
  | [], total_written => (buf.drop total_written, [])
  | o :: os, total_written =>
    if total_written < buf.length then
      match o with
      | SockWrite.intr => write_loop buf os total_written
      | SockWrite.error => ([], os)
      | SockWrite.wrote n =>
        let bytes_written := min n (buf.length - total_written)
        let r := write_loop buf os (total_written + bytes_written)
        ((buf.drop total_written).take bytes_written ++ r.1, r.2)
    else ([], o :: os)

/-- Sends a response of the given type, with the record when it applies. -/
def send_msg (L : Layout) (c : Conn) (type : Nat) (rd : Option (List Nat)) : Conn :=
  let response := mk_response L type rd
  let r := write_loop response.bytes c.sock 0
  { c with sent := c.sent ++ [response], wire := c.wire ++ r.1, sock := r.2 }

/-! ## The record store -/

/-- The scan loop of `check_duplicate` over the blocks read: -1 at the first block
with the id, 1 when the loop ends without one. -/
def check_loop (L : Layout) (id : Nat) : List (List Nat) → Int
  | [] => 1
  | temp :: rest => if idOf L temp = id then -1 else check_loop L id rest

/-- Looks for a record with the id of `new_record`: 1 if none is found, -1 if one is
found or the file cannot be opened (a `FAIL` response is sent in that case). -/
def check_duplicate (L : Layout) (e : Env) (w : World) (new_record : List Nat) :
    Int × World :=
  match (if e.openRead then w.db else none) with
  | none => (-1, { w with conn := send_msg L w.conn FAIL none })
  | some bytes => (check_loop L (idOf L new_record) (reads L e bytes), w)

/-- Handles a PUT request. -/
def handle_put (L : Layout) (e : Env) (w : World) (new_record : List Nat) : World :=
  if e.openAppend then
    let w1 : World := { w with db := some (w.db.getD []) }
    let r := check_duplicate L e w1 new_record
    if r.1 = 1 then
      match e.written with
      | some n =>
        let k := min n L.recSize
        let w2 : World := { r.2 with db := some (r.2.db.getD [] ++ new_record.take k) }
        if k = L.recSize then { w2 with conn := send_msg L w2.conn SUCCESS none }
        else { w2 with conn := send_msg L w2.conn FAIL none }
      | none => { r.2 with conn := send_msg L r.2.conn FAIL none }
    else { r.2 with conn := send_msg L r.2.conn FAIL none }
  else { w with conn := send_msg L w.conn FAIL none }

/-- The scan loop of `handle_get` over the blocks read: the first with the id. -/
def get_loop (L : Layout) (id : Nat) : List (List Nat) → Option (List Nat)
  | [] => none
  | temp :: rest => if idOf L temp = id then some temp else get_loop L id rest

/-- Handles a GET request. -/
def handle_get (L : Layout) (e : Env) (w : World) (id : Nat) : World :=
  match (if e.openRead then w.db else none) with
  | none => { w with conn := send_msg L w.conn FAIL none }
  | some bytes =>
    match get_loop L id (reads L e bytes) with
    | some temp => { w with conn := send_msg L w.conn SUCCESS (some temp) }
    | none => { w with conn := send_msg L w.conn FAIL none }

/-! ## Requests handled one at a time -/

/-- A request as the handler dispatches it: the record of a PUT, the id of a GET. -/
inductive Request where
  | put (new_record : List Nat)
  | get (id : Nat)
deriving DecidableEq

/-- Handles one request with the file system outcomes `e`. -/
def handle (L : Layout) (e : Env) (w : World) : Request → World
  | Request.put new_record => handle_put L e w new_record
  | Request.get id => handle_get L e w id

/-- Handles a sequence of requests one after the other, each with its own
file system outcomes. -/
def serve (L : Layout) : World → List (Env × Request) → World
  | w, [] => w
  | w, x :: rest => serve L (handle L x.1 w x.2) rest

/-- Bytes of the backing file; an absent file holds none. -/
def contents (w : World) : List Nat :=
  w.db.getD []

/-- The record sequence in the store: the blocks a scan of the file reads. -/
def stored (L : Layout) (w : World) : List (List Nat) :=
  blocks L (contents w)

/-- The file is a store in the sense of the data model: a sequence of whole
`struct record` blocks (an absent or empty file is the empty store). -/
def World.isStore (L : Layout) (w : World) : Prop :=
  (contents w).length % L.recSize = 0

instance (L : Layout) (w : World) : Decidable (w.isStore L) :=
  inferInstanceAs (Decidable ((contents w).length % L.recSize = 0))

/-- Responses sent on the connection between the states `w` and `w2`. -/
def replies (w w2 : World) : List msg :=
  w2.conn.sent.drop w.conn.sent.length

/-- A world with no backing file yet and a fresh connection. -/
def World.init : World :=
  { db := none, conn := { sent := [], wire := [], sock := [], closed := false } }

/-! ## `HandleClient` -/

/-- Outcome of one `read(client_fd, &message, sizeof(message))` of the handler loop,
with the file system outcomes of the dispatch that may follow. -/
structure SockRead where
  /-- Return value of `read`. -/
  res : Int
  /-- Whether `errno` is `EAGAIN` or `EINTR` when `res` is -1. -/
  transient : Bool
  /-- Contents of the `message` buffer after the call. -/
  message : msg
  /-- File system outcomes while the message is dispatched. -/
  env : Env
deriving DecidableEq

/-- Modelled from the spec: `msg.h` is not among the sources; the value of
`sizeof(struct msg)`, the frame size: the type tag and the record. -/
def Layout.msgSize (L : Layout) : Nat :=
  1 + L.recSize

/-- The connection after `close(client_fd)`. -/
def World.close (w : World) : World :=
  { w with conn := { w.conn with closed := true } }

/-- The handler loop over the successive results of `read` on the socket. When the
list is used up the handler waits in `read` with the connection open. -/
def HandleClient (L : Layout) : World → List SockRead → World
  | w, [] => w
  | w, ev :: rest =>
    if ev.res = 0 then w.close
    else if ev.res = -1 then
      if ev.transient then HandleClient L w rest else w.close
    else if ev.message.type = PUT then
      HandleClient L (handle_put L ev.env w ev.message.rd) rest
    else if ev.message.type = GET then
      HandleClient L (handle_get L ev.env w (idOf L ev.message.rd)) rest
    else HandleClient L w rest

/-! ## Handlers running side by side -/

/-- Where a handler stands inside `handle_put`. -/
inductive PutPhase where
  /-- Before `open`. -/
  | start
  /-- Value `r` came back from `check_duplicate`; `write` is still to be issued. -/
  | checked (r : Int)
  /-- Function `handle_put` returned. -/
  | done
deriving DecidableEq

/-- First part of `handle_put`: `open` and `check_duplicate`. -/
def put_check (L : Layout) (e : Env) (w : World) (new_record : List Nat) :
    PutPhase × World :=
  if e.openAppend then
    let w1 : World := { w with db := some (w.db.getD []) }
    let r := check_duplicate L e w1 new_record
    (PutPhase.checked r.1, r.2)
  else (PutPhase.done, { w with conn := send_msg L w.conn FAIL none })

/-- Second part of `handle_put`: the branch on the value of `check_duplicate`,
with the `write` and the response. -/
def put_commit (L : Layout) (e : Env) (w : World) (new_record : List Nat) (r : Int) :
    World :=
  if r = 1 then
    match e.written with
    | some n =>
      let k := min n L.recSize
      let w2 : World := { w with db := some (w.db.getD [] ++ new_record.take k) }
      if k = L.recSize then { w2 with conn := send_msg L w2.conn SUCCESS none }
      else { w2 with conn := send_msg L w2.conn FAIL none }
    | none => { w with conn := send_msg L w.conn FAIL none }
  else { w with conn := send_msg L w.conn FAIL none }

/-- A connection handler serving one PUT. -/
structure PutThread where
  new_record : List Nat
  env : Env
  conn : Conn
  phase : PutPhase
deriving DecidableEq

/-- The shared backing file and the handlers running against it. -/
structure Sys where
  db : Option (List Nat)
  threads : List PutThread
deriving DecidableEq

/-- One handler runs its next part of `handle_put` against the shared file. -/
def stepThread (L : Layout) (db : Option (List Nat)) (t : PutThread) :
    Option (List Nat) × PutThread :=
  match t.phase with
  | PutPhase.start =>
    let r := put_check L t.env { db := db, conn := t.conn } t.new_record
    (r.2.db, { t with conn := r.2.conn, phase := r.1 })
  | PutPhase.checked v =>
    let w := put_commit L t.env { db := db, conn := t.conn } t.new_record v
    (w.db, { t with conn := w.conn, phase := PutPhase.done })
  | PutPhase.done => (db, t)

/-- The scheduler lets handler number `i` take one step. -/
def step (L : Layout) (s : Sys) (i : Nat) : Sys :=
  match s.threads.get? i with
  | some t =>
    let r := stepThread L s.db t
    { db := r.1, threads := s.threads.set i r.2 }
  | none => s

/-- Runs the handlers in the order the schedule gives. -/
def runSched (L : Layout) : Sys → List Nat → Sys
  | s, [] => s
  | s, i :: rest => runSched L (step L s i) rest

/-! ## Sample data -/

/-- A layout with `name` first and a little-endian `id` after it, no padding. -/
def L0 : Layout :=
  { idOff := 128, nameOff := 0, tail := 0, bigEndian := false }

/-- The one-letter name `c` as a 128-byte field, padded with zero bytes. -/
def sampleName (c : Nat) : List Nat :=
  c :: List.replicate 127 0

/-- A record of layout `L0` with the id `id` (below 256) and the one-letter name `c`. -/
def sampleRecord (id c : Nat) : List Nat :=
  sampleName c ++ [id, 0, 0, 0]

/-- A fully read message of layout `L0` whose type, 9, is neither PUT nor GET. -/
def unknownRead : SockRead :=
  { res := 133, transient := false, message := { type := 9, rd := zeroRecord L0 },
    env := Env.good L0 }

/-- File system outcomes where the read-only `open` of `check_duplicate` fails after
the appending `open` of `handle_put` succeeded. -/
def envNoRead : Env :=
  { openAppend := true, openRead := false, readFail := none, written := some 132 }

/-- File system outcomes where the first `read` of the scan returns -1. -/
def envReadFault : Env :=
  { openAppend := true, openRead := true, readFail := some 0, written := some 132 }

/-- File system outcomes where `write` transfers a single byte of the record. -/
def envShortWrite : Env :=
  { openAppend := true, openRead := true, readFail := none, written := some 1 }

/-- A fully read PUT of the record with id 7 and name "A", handled while the
read-only `open` fails. -/
def putScanOpenFails : SockRead :=
  { res := 133, transient := false, message := { type := PUT, rd := sampleRecord 7 65 },
    env := envNoRead }

/-- A `read` that returned one byte, the type tag PUT; the rest of the buffer holds
what was there before, here the bytes of a record with id 5 and name "B". -/
def shortRead : SockRead :=
  { res := 1, transient := false, message := { type := PUT, rd := sampleRecord 5 66 },
    env := Env.good L0 }

/-- Two handlers, each about to serve a PUT with id 7, with the names "A" and "B",
on a store that does not exist yet. -/
def racingPuts : Sys :=
  { db := none,
    threads :=
      [{ new_record := sampleRecord 7 65, env := Env.good L0,
         conn := World.init.conn, phase := PutPhase.start },
       { new_record := sampleRecord 7 66, env := Env.good L0,
         conn := World.init.conn, phase := PutPhase.start }] }

/-- Whether the record of a PUT is a full `struct record` block, as `&message.rd`
always is; a GET carries no record. -/
def Request.wellFormed (L : Layout) : Request → Bool
  | Request.put new_record => new_record.length == L.recSize
  | Request.get _ => true

/-- Four requests: two PUTs with id 7, a GET for 7 and a PUT with id 8, each handled
without faults. -/
def sampleRequests : List (Env × Request) :=
  [(Env.good L0, Request.put (sampleRecord 7 65)),
   (Env.good L0, Request.put (sampleRecord 7 66)),
   (Env.good L0, Request.get 7),
   (Env.good L0, Request.put (sampleRecord 8 67))]

/-- The store after a fault-free PUT of the record with id 7 and name "A". -/
def worldA : World :=
  handle_put L0 (Env.good L0) World.init (sampleRecord 7 65)

/-! ## Basic facts -/

theorem recSize_pos (L : Layout) : 0 < L.recSize := by
  unfold Layout.recSize
  have := le_max_left (L.idOff + 4) (L.nameOff + 128)
  omega

theorem send_msg_sent (L : Layout) (c : Conn) (type : Nat) (rd : Option (List Nat)) :
    (send_msg L c type rd).sent = c.sent ++ [mk_response L type rd] := rfl

theorem send_msg_closed (L : Layout) (c : Conn) (type : Nat) (rd : Option (List Nat)) :
    (send_msg L c type rd).closed = c.closed := rfl

theorem mk_response_none (L : Layout) (type : Nat) :
    mk_response L type none = { type := type, rd := zeroRecord L } := rfl

theorem blocksAux_append_left (n : Nat) :
    ∀ (k : Nat) (xs ys : List Nat), k * n ≤ xs.length →
      blocksAux n k (xs ++ ys) = blocksAux n k xs := by
  intro k
  induction k with
  | zero => intro xs ys _; rfl
  | succ k ih =>
    intro xs ys h
    have hn : n ≤ xs.length := by
      have : (k + 1) * n = k * n + n := by ring
      omega
    simp only [blocksAux]
    rw [List.take_append_of_le_length hn, List.drop_append_of_le_length hn]
    rw [ih (xs.drop n) ys (by
      rw [List.length_drop]
      have : (k + 1) * n = k * n + n := by ring
      omega)]

theorem blocksAux_add (n : Nat) :
    ∀ (k j : Nat) (xs : List Nat),
      blocksAux n (k + j) xs = blocksAux n k xs ++ blocksAux n j (xs.drop (k * n)) := by
  intro k
  induction k with
  | zero => intro j xs; simp [blocksAux]
  | succ k ih =>
    intro j xs
    have e : k + 1 + j = (k + j) + 1 := by omega
    rw [e]
    simp only [blocksAux, List.cons_append, ih, List.drop_drop]
    have : n + k * n = (k + 1) * n := by ring
    rw [this]

theorem blocks_append (L : Layout) (xs ys : List Nat)
    (h : xs.length % L.recSize = 0) :
    blocks L (xs ++ ys) = blocks L xs ++ blocks L ys := by
  have hp := recSize_pos L
  obtain ⟨q, hq⟩ : L.recSize ∣ xs.length := Nat.dvd_of_mod_eq_zero h
  unfold blocks
  have e1 : (xs ++ ys).length / L.recSize = q + ys.length / L.recSize := by
    rw [List.length_append, hq, Nat.mul_add_div hp]
  have e2 : xs.length / L.recSize = q := by
    rw [hq, Nat.mul_div_cancel_left _ hp]
  have e3 : q * L.recSize = xs.length := by rw [hq, Nat.mul_comm]
  rw [e1, e2, blocksAux_add, blocksAux_append_left _ _ _ _ (by omega), e3,
    List.drop_left]

theorem blocks_record (L : Layout) (r : List Nat) (h : r.length = L.recSize) :
    blocks L r = [r] := by
  have hp := recSize_pos L
  unfold blocks
  rw [h, Nat.div_self hp]
  simp [blocksAux, ← h]

theorem blocks_short (L : Layout) (xs : List Nat) (h : xs.length < L.recSize) :
    blocks L xs = [] := by
  unfold blocks
  rw [Nat.div_eq_of_lt h]
  rfl

theorem blocks_nil (L : Layout) : blocks L [] = [] :=
  blocks_short L [] (recSize_pos L)

theorem Env.ok_spec (L : Layout) (e : Env) (h : e.ok L = true) :
    e.openAppend = true ∧ e.openRead = true ∧ e.readFail = none ∧
      ∃ n, e.written = some n ∧ L.recSize ≤ n := by
  unfold Env.ok at h
  cases hw : e.written with
  | none => simp [hw] at h
  | some n =>
    simp only [hw, Bool.and_eq_true, decide_eq_true_eq] at h
    obtain ⟨⟨⟨h1, h2⟩, h3⟩, h4⟩ := h
    refine ⟨h1, h2, ?_, n, rfl, h4⟩
    cases hr : e.readFail with
    | none => rfl
    | some k => simp [hr] at h3

theorem check_loop_eq_one (L : Layout) (id : Nat) (bs : List (List Nat)) :
    check_loop L id bs = 1 ↔ ∀ b ∈ bs, idOf L b ≠ id := by
  induction bs with
  | nil => simp [check_loop]
  | cons b rest ih =>
    by_cases hb : idOf L b = id
    · simp [check_loop, hb]
    · simp [check_loop, hb, ih]

theorem check_loop_values (L : Layout) (id : Nat) (bs : List (List Nat)) :
    check_loop L id bs = 1 ∨ check_loop L id bs = -1 := by
  induction bs with
  | nil => left; rfl
  | cons b rest ih =>
    by_cases hb : idOf L b = id
    · right; simp [check_loop, hb]
    · simpa [check_loop, hb] using ih

theorem get_loop_eq_none (L : Layout) (id : Nat) (bs : List (List Nat)) :
    get_loop L id bs = none ↔ ∀ b ∈ bs, idOf L b ≠ id := by
  induction bs with
  | nil => simp [get_loop]
  | cons b rest ih =>
    by_cases hb : idOf L b = id
    · simp [get_loop, hb]
    · simp [get_loop, hb, ih]

theorem get_loop_some (L : Layout) (id : Nat) (bs : List (List Nat)) (t : List Nat)
    (h : get_loop L id bs = some t) : t ∈ bs ∧ idOf L t = id := by
  induction bs with
  | nil => simp [get_loop] at h
  | cons b rest ih =>
    by_cases hb : idOf L b = id
    · simp only [get_loop, hb, if_true, Option.some.injEq] at h
      subst h
      exact ⟨List.mem_cons_self _ _, hb⟩
    · simp only [get_loop, hb, if_false] at h
      exact ⟨List.mem_cons_of_mem _ (ih h).1, (ih h).2⟩

theorem get_loop_append_of_none (L : Layout) (id : Nat) (xs ys : List (List Nat))
    (h : get_loop L id xs = none) : get_loop L id (xs ++ ys) = get_loop L id ys := by
  induction xs with
  | nil => rfl
  | cons b rest ih =>
    by_cases hb : idOf L b = id
    · simp [get_loop, hb] at h
    · simp only [get_loop, hb, if_false] at h
      simp [get_loop, hb, ih h]

theorem get_loop_append_of_some (L : Layout) (id : Nat) (xs ys : List (List Nat))
    (t : List Nat) (h : get_loop L id xs = some t) :
    get_loop L id (xs ++ ys) = some t := by
  induction xs with
  | nil => simp [get_loop] at h
  | cons b rest ih =>
    by_cases hb : idOf L b = id
    · simpa [get_loop, hb] using h
    · simp only [get_loop, hb, if_false] at h
      simp [get_loop, hb, ih h]

theorem handle_put_ok (L : Layout) (e : Env) (w : World) (r : List Nat)
    (he : e.ok L = true) (hr : r.length = L.recSize) :
    handle_put L e w r =
      if check_loop L (idOf L r) (stored L w) = 1 then
        { db := some (contents w ++ r), conn := send_msg L w.conn SUCCESS none }
      else { db := some (contents w), conn := send_msg L w.conn FAIL none } := by
  obtain ⟨h1, h2, h3, n, h4, h5⟩ := Env.ok_spec L e he
  have hk : min n L.recSize = L.recSize := Nat.min_eq_right h5
  have ht : List.take L.recSize r = r := by
    rw [← hr]; exact List.take_length r
  simp only [handle_put, check_duplicate, reads, h1, h2, h3, h4, hk, if_true, stored,
    contents, Option.getD_some, ht]

theorem handle_get_db (L : Layout) (e : Env) (w : World) (id : Nat) :
    (handle_get L e w id).db = w.db := by
  unfold handle_get
  split
  · rfl
  · split <;> rfl

theorem stored_handle_get (L : Layout) (e : Env) (w : World) (id : Nat) :
    stored L (handle_get L e w id) = stored L w := by
  simp [stored, contents, handle_get_db]

theorem contents_handle_get (L : Layout) (e : Env) (w : World) (id : Nat) :
    contents (handle_get L e w id) = contents w := by
  simp [contents, handle_get_db]

theorem stored_append_record (L : Layout) (bytes r : List Nat)
    (ha : bytes.length % L.recSize = 0) (hr : r.length = L.recSize) :
    blocks L (bytes ++ r) = blocks L bytes ++ [r] := by
  rw [blocks_append L bytes r ha, blocks_record L r hr]

/-- One fault-free request keeps the file a sequence of whole records with at most
one record per id. -/
theorem handle_keeps_unique (L : Layout) (e : Env) (w : World) (q : Request)
    (he : e.ok L = true) (hq : q.wellFormed L = true)
    (ha : (contents w).length % L.recSize = 0)
    (hu : ∀ k, (stored L w).countP (fun b => idOf L b = k) ≤ 1) :
    (contents (handle L e w q)).length % L.recSize = 0 ∧
      ∀ k, (stored L (handle L e w q)).countP (fun b => idOf L b = k) ≤ 1 := by
  cases q with
  | get id =>
    simp only [handle, stored_handle_get, contents_handle_get]
    exact ⟨ha, hu⟩
  | put r =>
    have hr : r.length = L.recSize := by
      simpa [Request.wellFormed] using hq
    simp only [handle]
    rw [handle_put_ok L e w r he hr]
    by_cases hc : check_loop L (idOf L r) (stored L w) = 1
    · rw [if_pos hc]
      have hs : stored L (World.mk (some (contents w ++ r))
          (send_msg L w.conn SUCCESS none)) = stored L w ++ [r] := by
        simp only [stored, contents, Option.getD_some]
        exact stored_append_record L _ r ha hr
      constructor
      · simp only [contents, Option.getD_some, List.length_append, hr]
        rw [Nat.add_mod_right]
        exact ha
      · intro k
        have hfresh := (check_loop_eq_one L (idOf L r) (stored L w)).1 hc
        rw [hs, List.countP_append]
        by_cases hk : idOf L r = k
        · have hz : (stored L w).countP (fun b => idOf L b = k) = 0 := by
            rw [List.countP_eq_zero]
            intro b hb
            have := hfresh b hb
            simp only [decide_eq_true_eq]
            omega
          rw [hz]
          simp [List.countP_cons, hk]
        · have := hu k
          simp [List.countP_cons, hk]
          exact this
    · rw [if_neg hc]
      constructor
      · simpa [contents] using ha
      · intro k
        have hs : stored L (World.mk (some (contents w))
            (send_msg L w.conn FAIL none)) = stored L w := by
          simp [stored, contents]
        rw [hs]
        exact hu k

theorem serve_keeps_unique (L : Layout) (reqs : List (Env × Request)) :
    ∀ (w : World), (∀ x ∈ reqs, x.1.ok L = true) →
      (∀ x ∈ reqs, x.2.wellFormed L = true) →
      (contents w).length % L.recSize = 0 →
      (∀ k, (stored L w).countP (fun b => idOf L b = k) ≤ 1) →
      (contents (serve L w reqs)).length % L.recSize = 0 ∧
        ∀ k, (stored L (serve L w reqs)).countP (fun b => idOf L b = k) ≤ 1 := by
  induction reqs with
  | nil => intro w _ _ ha hu; exact ⟨ha, hu⟩
  | cons x rest ih =>
    intro w hok hrec ha hu
    have hx := handle_keeps_unique L x.1 w x.2
      (hok x (List.mem_cons_self _ _)) (hrec x (List.mem_cons_self _ _)) ha hu
    exact ih (handle L x.1 w x.2)
      (fun y hy => hok y (List.mem_cons_of_mem _ hy))
      (fun y hy => hrec y (List.mem_cons_of_mem _ hy)) hx.1 hx.2

/-- C1. Sequential uniqueness: from an empty store (no file or an empty one), after
any finite sequence of PUT and GET requests handled one at a time by `handle_put` and
`handle_get`, every file operation succeeding and every write complete, each PUT
carrying a full record block, the record sequence in the store holds at most one
record for every id. -/
theorem sequential_uniqueness (L : Layout) (w0 : World) (reqs : List (Env × Request))
    (hempty : contents w0 = [])
    (hok : ∀ x ∈ reqs, x.1.ok L = true)
    (hrec : ∀ x ∈ reqs, x.2.wellFormed L = true)
    (k : Nat) :
    (stored L (serve L w0 reqs)).countP (fun b => idOf L b = k) ≤ 1 := by
  refine (serve_keeps_unique L reqs w0 hok hrec ?_ ?_).2 k
  · simp [hempty]
  · intro j
    simp [stored, hempty, blocks_nil]

theorem replies_send (L : Layout) (w : World) (db : Option (List Nat)) (type : Nat)
    (rd : Option (List Nat)) :
    replies w (World.mk db (send_msg L w.conn type rd)) = [mk_response L type rd] := by
  simp [replies, send_msg_sent]

theorem replies_send_twice (L : Layout) (w : World) (db : Option (List Nat))
    (t1 t2 : Nat) (rd1 rd2 : Option (List Nat)) :
    replies w (World.mk db (send_msg L (send_msg L w.conn t1 rd1) t2 rd2)) =
      [mk_response L t1 rd1, mk_response L t2 rd2] := by
  simp [replies, send_msg_sent]

/-- The branches of `handle_put`, each with the world it leaves. -/
theorem handle_put_eq (L : Layout) (e : Env) (w : World) (r : List Nat) :
    handle_put L e w r =
      if e.openAppend = false then World.mk w.db (send_msg L w.conn FAIL none)
      else if e.openRead = false then
        World.mk (some (contents w)) (send_msg L (send_msg L w.conn FAIL none) FAIL none)
      else if check_loop L (idOf L r) (reads L e (contents w)) = 1 then
        match e.written with
        | some n =>
          World.mk (some (contents w ++ r.take (min n L.recSize)))
            (send_msg L w.conn (if min n L.recSize = L.recSize then SUCCESS else FAIL) none)
        | none => World.mk (some (contents w)) (send_msg L w.conn FAIL none)
      else World.mk (some (contents w)) (send_msg L w.conn FAIL none) := by
  cases h1 : e.openAppend with
  | false => simp [handle_put, h1]
  | true =>
    cases h2 : e.openRead with
    | false => simp [handle_put, check_duplicate, h1, h2, contents]
    | true =>
      by_cases hc : check_loop L (idOf L r) (reads L e (contents w)) = 1
      · cases hw : e.written with
        | none =>
          simp only [contents] at hc
          simp [handle_put, check_duplicate, h1, h2, hc, hw, contents]
        | some n =>
          simp only [contents] at hc
          by_cases hk : min n L.recSize = L.recSize
          · simp [handle_put, check_duplicate, h1, h2, hc, hw, contents, hk]
          · simp [handle_put, check_duplicate, h1, h2, hc, hw, contents, hk]
      · simp only [contents] at hc
        simp [handle_put, check_duplicate, h1, h2, hc, contents]

/-- The branches of `handle_get`, each with the world it leaves. -/
theorem handle_get_eq (L : Layout) (e : Env) (w : World) (id : Nat) :
    handle_get L e w id =
      if e.openRead = false ∨ w.db = none then World.mk w.db (send_msg L w.conn FAIL none)
      else
        match get_loop L id (reads L e (contents w)) with
        | some temp => World.mk w.db (send_msg L w.conn SUCCESS (some temp))
        | none => World.mk w.db (send_msg L w.conn FAIL none) := by
  cases h2 : e.openRead with
  | false => simp [handle_get, h2]
  | true =>
    cases hd : w.db with
    | none => simp [handle_get, h2, hd]
    | some bytes =>
      simp only [handle_get, h2, hd, if_true, contents, Option.getD_some]
      cases get_loop L id (reads L e bytes) <;> simp [hd]

theorem handle_put_fresh (L : Layout) (e : Env) (w : World) (r : List Nat)
    (he : e.ok L = true) (hr : r.length = L.recSize)
    (hf : ∀ b ∈ stored L w, idOf L b ≠ idOf L r) :
    handle_put L e w r =
      World.mk (some (contents w ++ r)) (send_msg L w.conn SUCCESS none) := by
  rw [handle_put_ok L e w r he hr,
    if_pos ((check_loop_eq_one L (idOf L r) (stored L w)).2 hf)]

/-- C6. No false duplicates: for every store (a file of whole records) and every two
records (full record blocks) with different ids, neither id present in the store,
handling PUT `r1` then PUT `r2` with all file operations succeeding replies SUCCESS
to both, and both records are in the store afterwards (appended in that order). -/
theorem no_false_duplicates (L : Layout) (w : World) (r1 r2 : List Nat) (e1 e2 : Env)
    (ha : w.isStore L)
    (hr1 : r1.length = L.recSize) (hr2 : r2.length = L.recSize)
    (he1 : e1.ok L = true) (he2 : e2.ok L = true)
    (hne : idOf L r1 ≠ idOf L r2)
    (h1 : ∀ b ∈ stored L w, idOf L b ≠ idOf L r1)
    (h2 : ∀ b ∈ stored L w, idOf L b ≠ idOf L r2) :
    (replies w (handle_put L e1 w r1)).map msg.type = [SUCCESS] ∧
    (replies (handle_put L e1 w r1)
      (handle_put L e2 (handle_put L e1 w r1) r2)).map msg.type = [SUCCESS] ∧
    r1 ∈ stored L (handle_put L e2 (handle_put L e1 w r1) r2) ∧
    r2 ∈ stored L (handle_put L e2 (handle_put L e1 w r1) r2) ∧
    stored L (handle_put L e2 (handle_put L e1 w r1) r2) = stored L w ++ [r1, r2] := by
  have hw1 := handle_put_fresh L e1 w r1 he1 hr1 h1
  have hs1 : stored L (handle_put L e1 w r1) = stored L w ++ [r1] := by
    rw [hw1]
    simp only [stored, contents, Option.getD_some]
    exact stored_append_record L _ r1 ha hr1
  have ha1 : (contents (handle_put L e1 w r1)).length % L.recSize = 0 := by
    rw [hw1]
    simp only [contents, Option.getD_some, List.length_append, hr1]
    rw [Nat.add_mod_right]
    exact ha
  have hf2 : ∀ b ∈ stored L (handle_put L e1 w r1), idOf L b ≠ idOf L r2 := by
    intro b hb
    rw [hs1, List.mem_append, List.mem_singleton] at hb
    rcases hb with hb | hb
    · exact h2 b hb
    · rw [hb]; exact hne
  have hw2 := handle_put_fresh L e2 (handle_put L e1 w r1) r2 he2 hr2 hf2
  have hs2 : stored L (handle_put L e2 (handle_put L e1 w r1) r2) =
      stored L w ++ [r1, r2] := by
    rw [hw2]
    simp only [stored, Option.getD_some]
    rw [show contents (World.mk (some (contents (handle_put L e1 w r1) ++ r2))
        (send_msg L (handle_put L e1 w r1).conn SUCCESS none)) =
        contents (handle_put L e1 w r1) ++ r2 from rfl]
    rw [stored_append_record L _ r2 ha1 hr2]
    have := hs1
    simp only [stored] at this
    rw [this]
    simp
  refine ⟨?_, ?_, ?_, ?_, hs2⟩
  · rw [hw1, replies_send]; rfl
  · rw [hw2, replies_send]; rfl
  · rw [hs2]; simp
  · rw [hs2]; simp

theorem ofBytes_zero (be : Bool) (n : Nat) : ofBytes be (List.replicate n 0) = 0 := by
  cases be with
  | true =>
    simp only [ofBytes, if_true]
    induction n with
    | zero => rfl
    | succ n ih => simpa [List.replicate_succ] using ih
  | false =>
    simp only [ofBytes, Bool.false_eq_true, if_false]
    induction n with
    | zero => rfl
    | succ n ih => simp [List.replicate_succ, ih]

theorem idOf_zeroRecord (L : Layout) : idOf L (zeroRecord L) = 0 := by
  simp only [idOf, zeroRecord, List.drop_replicate, List.take_replicate]
  exact ofBytes_zero _ _

theorem nameOf_zeroRecord (L : Layout) : nameOf L (zeroRecord L) = List.replicate 128 0 := by
  simp only [nameOf, zeroRecord, List.drop_replicate, List.take_replicate]
  congr 1
  unfold Layout.recSize
  have := le_max_right (L.idOff + 4) (L.nameOff + 128)
  omega

theorem mk_response_success (L : Layout) (r : List Nat) :
    mk_response L SUCCESS (some r) = { type := SUCCESS, rd := r } := by
  simp [mk_response]

theorem mk_response_type (L : Layout) (type : Nat) (rd : Option (List Nat)) :
    (mk_response L type rd).type = type := by
  unfold mk_response
  cases rd with
  | none => rfl
  | some r => by_cases h : type = SUCCESS <;> simp [h]

theorem mk_response_rd (L : Layout) (type : Nat) (rd : Option (List Nat)) :
    (mk_response L type rd).rd =
      match rd with
      | some r => if type = SUCCESS then r else zeroRecord L
      | none => zeroRecord L := by
  unfold mk_response
  cases rd with
  | none => rfl
  | some r => by_cases h : type = SUCCESS <;> simp [h]

/-- C7. Response payload: the message `send_msg` builds and sends has the requested
type and an all-zero payload (id 0, name all zero bytes), except a SUCCESS response
given a record, whose payload is that record; so a SUCCESS reply to GET carries the
record the scan found, while every reply to PUT (SUCCESS or FAIL) and every FAIL
reply to GET carry the zeroed payload. -/
theorem response_payload (L : Layout) :
    (∀ (type : Nat) (rd : Option (List Nat)),
      (mk_response L type rd).type = type ∧
      (mk_response L type rd).rd =
        match rd with
        | some r => if type = SUCCESS then r else zeroRecord L
        | none => zeroRecord L) ∧
    (∀ (c : Conn) (type : Nat) (rd : Option (List Nat)),
      (send_msg L c type rd).sent = c.sent ++ [mk_response L type rd]) ∧
    ((∀ b ∈ zeroRecord L, b = 0) ∧ (zeroRecord L).length = L.recSize ∧
      idOf L (zeroRecord L) = 0 ∧ nameOf L (zeroRecord L) = List.replicate 128 0) ∧
    (∀ (e : Env) (w : World) (id : Nat), ∀ m ∈ replies w (handle_get L e w id),
      (m.type = SUCCESS ∧ get_loop L id (reads L e (contents w)) = some m.rd) ∨
      (m.type = FAIL ∧ m.rd = zeroRecord L)) ∧
    (∀ (e : Env) (w : World) (r : List Nat), ∀ m ∈ replies w (handle_put L e w r),
      (m.type = SUCCESS ∨ m.type = FAIL) ∧ m.rd = zeroRecord L) := by
  refine ⟨fun type rd => ⟨mk_response_type L type rd, mk_response_rd L type rd⟩,
    fun c type rd => send_msg_sent L c type rd,
    ⟨fun b hb => List.eq_of_mem_replicate hb, by simp [zeroRecord],
      idOf_zeroRecord L, nameOf_zeroRecord L⟩, ?_, ?_⟩
  · intro e w id m hm
    rw [handle_get_eq] at hm
    split at hm
    · rw [replies_send, List.mem_singleton] at hm
      right; subst hm; exact ⟨rfl, rfl⟩
    · split at hm
      · rename_i temp ht
        rw [replies_send, List.mem_singleton, mk_response_success] at hm
        left; subst hm; exact ⟨rfl, ht⟩
      · rw [replies_send, List.mem_singleton] at hm
        right; subst hm; exact ⟨rfl, rfl⟩
  · intro e w r m hm
    rw [handle_put_eq] at hm
    split at hm
    · rw [replies_send, List.mem_singleton] at hm
      subst hm; exact ⟨Or.inr rfl, rfl⟩
    · split at hm
      · rw [replies_send_twice] at hm
        simp only [List.mem_cons, List.mem_singleton, List.not_mem_nil, or_false,
          or_self] at hm
        subst hm; exact ⟨Or.inr rfl, rfl⟩
      · split at hm
        · split at hm
          · rw [replies_send, List.mem_singleton] at hm
            subst hm
            refine ⟨?_, rfl⟩
            rw [mk_response_none]
            split
            · left; rfl
            · right; rfl
          · rw [replies_send, List.mem_singleton] at hm
            subst hm; exact ⟨Or.inr rfl, rfl⟩
        · rw [replies_send, List.mem_singleton] at hm
          subst hm; exact ⟨Or.inr rfl, rfl⟩

theorem msgSize_cast (L : Layout) : ((L.msgSize : Nat) : Int) ≠ 0 ∧
    ((L.msgSize : Nat) : Int) ≠ -1 := by
  have := recSize_pos L
  unfold Layout.msgSize
  constructor <;> omega

/-- C5, as the code has it. For every fully read message whose type is neither PUT (1)
nor GET (2), the connection handler sends no response, leaves the store untouched and
keeps the connection open: it goes on to read the next message in the same state. -/
theorem unknown_type_ignored (L : Layout) (w : World) (ev : SockRead)
    (rest : List SockRead)
    (hfull : ev.res = (L.msgSize : Nat))
    (hput : ev.message.type ≠ PUT) (hget : ev.message.type ≠ GET) :
    HandleClient L w (ev :: rest) = HandleClient L w rest ∧
    HandleClient L w [ev] = w := by
  have h := msgSize_cast L
  rw [← hfull] at h
  constructor
  · simp [HandleClient, h.1, h.2, hput, hget]
  · simp [HandleClient, h.1, h.2, hput, hget]

/-! ## Lookup after insertion -/

theorem handle_put_extends (L : Layout) (e : Env) (w : World) (r : List Nat) :
    (∃ extra, contents (handle_put L e w r) = contents w ++ extra) ∧
      (w.db ≠ none → (handle_put L e w r).db ≠ none) := by
  rw [handle_put_eq]
  split
  · exact ⟨⟨[], by simp [contents]⟩, fun h => h⟩
  · split
    · exact ⟨⟨[], by simp [contents]⟩, fun _ => by simp⟩
    · split
      · split
        · rename_i n _
          exact ⟨⟨r.take (min n L.recSize), by simp [contents]⟩, fun _ => by simp⟩
        · exact ⟨⟨[], by simp [contents]⟩, fun _ => by simp⟩
      · exact ⟨⟨[], by simp [contents]⟩, fun _ => by simp⟩

theorem handle_extends (L : Layout) (e : Env) (w : World) (q : Request) :
    (∃ extra, contents (handle L e w q) = contents w ++ extra) ∧
      (w.db ≠ none → (handle L e w q).db ≠ none) := by
  cases q with
  | put r => exact handle_put_extends L e w r
  | get id =>
    simp only [handle]
    exact ⟨⟨[], by simp [contents_handle_get]⟩, fun h => by rw [handle_get_db]; exact h⟩

theorem serve_extends (L : Layout) (reqs : List (Env × Request)) :
    ∀ (w : World), (∃ extra, contents (serve L w reqs) = contents w ++ extra) ∧
      (w.db ≠ none → (serve L w reqs).db ≠ none) := by
  induction reqs with
  | nil => intro w; exact ⟨⟨[], by simp [serve]⟩, fun h => h⟩
  | cons x rest ih =>
    intro w
    obtain ⟨⟨a, ha⟩, hd⟩ := handle_extends L x.1 w x.2
    obtain ⟨⟨b, hb⟩, hd2⟩ := ih (handle L x.1 w x.2)
    refine ⟨⟨a ++ b, ?_⟩, fun h => hd2 (hd h)⟩
    simp only [serve]
    rw [hb, ha, List.append_assoc]

theorem handle_put_success (L : Layout) (e : Env) (w : World) (r : List Nat)
    (hr : r.length = L.recSize)
    (hs : (replies w (handle_put L e w r)).map msg.type = [SUCCESS]) :
    handle_put L e w r =
        World.mk (some (contents w ++ r)) (send_msg L w.conn SUCCESS none) ∧
      check_loop L (idOf L r) (reads L e (contents w)) = 1 := by
  have ht : List.take L.recSize r = r := by
    rw [← hr]; exact List.take_length r
  rw [handle_put_eq] at hs ⊢
  split at hs
  · rw [replies_send] at hs
    simp [mk_response_none, SUCCESS, FAIL] at hs
  · rename_i h1
    split at hs
    · rw [replies_send_twice] at hs
      simp at hs
    · rename_i h2
      split at hs
      · rename_i h3
        split at hs
        · rename_i n hn
          rw [replies_send] at hs
          by_cases hk : min n L.recSize = L.recSize
          · refine ⟨?_, h3⟩
            rw [if_neg h1, if_neg h2, if_pos h3]
            simp only [hn, hk, if_true, ht]
          · simp [mk_response_none, hk, SUCCESS, FAIL] at hs
        · rw [replies_send] at hs
          simp [mk_response_none, SUCCESS, FAIL] at hs
      · rw [replies_send] at hs
        simp [mk_response_none, SUCCESS, FAIL] at hs

theorem mem_reads (L : Layout) (e : Env) (bytes b : List Nat)
    (h : b ∈ reads L e bytes) : b ∈ blocks L bytes := by
  unfold reads at h
  split at h
  · exact h
  · exact List.mem_of_mem_take h

/-- C3, as the code has it. (1) For every store and every record `r`: if a PUT of `r`
whose duplicate scan met no read error replies SUCCESS, then a GET for the id of
`r` whose `open` and reads succeed replies SUCCESS with the payload `r` (so with its
id and name), right away and after any further sequence of PUT and GET requests,
whatever their file operations did. (2) A GET whose `open` fails replies FAIL.
(3) For every id that no stored record carries, GET replies FAIL. -/
theorem lookup_correct (L : Layout) :
    (∀ (w : World) (r : List Nat) (e1 : Env) (more : List (Env × Request)) (e2 : Env),
      w.isStore L → r.length = L.recSize →
      e1.readFail = none →
      (replies w (handle_put L e1 w r)).map msg.type = [SUCCESS] →
      e2.openRead = true → e2.readFail = none →
      replies (serve L (handle_put L e1 w r) more)
        (handle_get L e2 (serve L (handle_put L e1 w r) more) (idOf L r)) =
          [{ type := SUCCESS, rd := r }]) ∧
    (∀ (w : World) (e : Env) (id : Nat), e.openRead = false →
      replies w (handle_get L e w id) = [{ type := FAIL, rd := zeroRecord L }]) ∧
    (∀ (w : World) (e : Env) (id : Nat), (∀ b ∈ stored L w, idOf L b ≠ id) →
      replies w (handle_get L e w id) = [{ type := FAIL, rd := zeroRecord L }]) := by
  refine ⟨?_, ?_, ?_⟩
  · intro w r e1 more e2 ha hr h1 hs h2 h3
    obtain ⟨hw1, hc⟩ := handle_put_success L e1 w r hr hs
    have hfresh : ∀ b ∈ blocks L (contents w), idOf L b ≠ idOf L r := by
      have := (check_loop_eq_one L (idOf L r) (reads L e1 (contents w))).1 hc
      simpa [reads, h1] using this
    obtain ⟨⟨extra, hx⟩, hd⟩ := serve_extends L more (handle_put L e1 w r)
    have hsome : (serve L (handle_put L e1 w r) more).db ≠ none :=
      hd (by rw [hw1]; simp)
    have hcont : contents (serve L (handle_put L e1 w r) more) =
        (contents w ++ r) ++ extra := by
      rw [hx, hw1]; rfl
    have hal : (contents w ++ r).length % L.recSize = 0 := by
      rw [List.length_append, hr, Nat.add_mod_right]; exact ha
    have hbl : blocks L ((contents w ++ r) ++ extra) =
        blocks L (contents w) ++ ([r] ++ blocks L extra) := by
      rw [blocks_append L _ extra hal, stored_append_record L _ r ha hr,
        List.append_assoc]
    have hget : get_loop L (idOf L r)
        (reads L e2 (contents (serve L (handle_put L e1 w r) more))) = some r := by
      simp only [reads, h3, hcont, hbl]
      rw [get_loop_append_of_none L _ _ _
        ((get_loop_eq_none L (idOf L r) _).2 hfresh)]
      simp [get_loop]
    rw [handle_get_eq, if_neg (by simp [h2, hsome])]
    simp only [hget]
    rw [replies_send, mk_response_success]
  · intro w e id h
    rw [handle_get_eq, if_pos (Or.inl h), replies_send, mk_response_none]
  · intro w e id h
    rw [handle_get_eq]
    split
    · rw [replies_send, mk_response_none]
    · have hn : get_loop L id (reads L e (contents w)) = none :=
        (get_loop_eq_none L id _).2 (fun b hb => h b (mem_reads L e _ b hb))
      simp only [hn]
      rw [replies_send, mk_response_none]

/-! ## What the handlers do on the paths the failing inputs leave aside -/

/-- The two parts of `handle_put` run back to back are `handle_put`. -/
theorem handle_put_phases (L : Layout) (e : Env) (w : World) (r : List Nat) :
    handle_put L e w r =
      match put_check L e w r with
      | (PutPhase.checked v, w1) => put_commit L e w1 r v
      | (_, w1) => w1 := by
  cases h1 : e.openAppend with
  | false => simp [handle_put, put_check, h1]
  | true => simp [handle_put, put_check, put_commit, h1]

/-- A socket that takes every byte gets the whole frame in one `write`. -/
theorem send_msg_wire (L : Layout) (c : Conn) (type : Nat) (rd : Option (List Nat))
    (h : c.sock = []) :
    (send_msg L c type rd).wire = c.wire ++ (mk_response L type rd).bytes := by
  simp [send_msg, h, write_loop]

/-- With no read error in the scan, a PUT whose id a stored record carries replies
FAIL only and leaves the file as it was. -/
theorem put_existing_id_fails (L : Layout) (e : Env) (w : World) (r : List Nat)
    (hread : e.readFail = none)
    (hdup : ∃ b ∈ stored L w, idOf L b = idOf L r) :
    (∀ m ∈ replies w (handle_put L e w r), m.type = FAIL) ∧
      replies w (handle_put L e w r) ≠ [] ∧
      contents (handle_put L e w r) = contents w := by
  have hc : ¬ check_loop L (idOf L r) (reads L e (contents w)) = 1 := by
    intro h
    obtain ⟨b, hb, hid⟩ := hdup
    have := (check_loop_eq_one L (idOf L r) _).1 h b (by simpa [reads, hread] using hb)
    exact this hid
  rw [handle_put_eq]
  split
  · rw [replies_send]
    simp [mk_response_none, contents]
  · split
    · rw [replies_send_twice]
      simp [mk_response_none, contents]
    · rw [replies_send]
      simp [mk_response_none, contents]

/-- Every path of `handle_put` but the one where the read-only `open` fails sends
exactly one response; `handle_get` always sends exactly one. -/
theorem one_reply_unless_scan_open_fails (L : Layout) (e : Env) (w : World) :
    (∀ r, ¬ (e.openAppend = true ∧ e.openRead = false) →
      (replies w (handle_put L e w r)).length = 1) ∧
    (∀ id, (replies w (handle_get L e w id)).length = 1) := by
  constructor
  · intro r h
    rw [handle_put_eq]
    split
    · rw [replies_send]; rfl
    · rename_i h1
      split
      · rename_i h2
        exact absurd ⟨by simpa using h1, h2⟩ h
      · split
        · split <;> (rw [replies_send]; rfl)
        · rw [replies_send]; rfl
  · intro id
    rw [handle_get_eq]
    split
    · rw [replies_send]; rfl
    · split <;> (rw [replies_send]; rfl)

/-- The file only grows at its end: any request leaves the old bytes as a prefix; a
GET leaves the file as it was; a PUT that replies SUCCESS appends exactly its record;
a PUT that replies FAIL appends nothing unless its `write` was cut short. -/
theorem append_only (L : Layout) (e : Env) (w : World) :
    (∀ q, contents w <+: contents (handle L e w q)) ∧
    (∀ id, contents (handle_get L e w id) = contents w) ∧
    (∀ r, r.length = L.recSize →
      (replies w (handle_put L e w r)).map msg.type = [SUCCESS] →
      contents (handle_put L e w r) = contents w ++ r) ∧
    (∀ r, (∀ m ∈ replies w (handle_put L e w r), m.type = FAIL) →
      contents (handle_put L e w r) = contents w ∨
      ∃ n, e.written = some n ∧ 0 < n ∧ n < L.recSize ∧
        contents (handle_put L e w r) = contents w ++ r.take n) := by
  refine ⟨?_, fun id => contents_handle_get L e w id, ?_, ?_⟩
  · intro q
    obtain ⟨⟨extra, hx⟩, _⟩ := handle_extends L e w q
    exact ⟨extra, hx.symm⟩
  · intro r hr hs
    rw [(handle_put_success L e w r hr hs).1]
    rfl
  · intro r hf
    rw [handle_put_eq] at hf ⊢
    split
    · left; rfl
    · split
      · left; rfl
      · rename_i h1 h2
        rw [if_neg h1, if_neg h2] at hf
        split
        · rename_i h3
          rw [if_pos h3] at hf
          split
          · rename_i n hn
            simp only [hn] at hf
            rw [replies_send, mk_response_none] at hf
            have hk : min n L.recSize ≠ L.recSize := by
              intro hk
              have := hf _ (List.mem_singleton_self _)
              simp [hk, SUCCESS, FAIL] at this
            have hlt : n < L.recSize := by
              by_contra hge
              exact hk (Nat.min_eq_right (by omega))
            rw [Nat.min_eq_left (by omega)]
            by_cases hn0 : n = 0
            · left; subst hn0; simp [contents]
            · right
              exact ⟨n, hn, by omega, hlt, rfl⟩
          · left; rfl
        · left; rfl

/-! ## The claims at concrete inputs -/

set_option maxRecDepth 1000000 in
/-- C5, counterexample. A fully read message of type 9 gets no response at all, so
no FAIL response either: nothing has been sent when the handler awaits the next
message. -/
theorem unknown_type_no_fail_reply :
    unknownRead.res = (L0.msgSize : Nat) ∧
    unknownRead.message.type ≠ PUT ∧ unknownRead.message.type ≠ GET ∧
    (HandleClient L0 World.init [unknownRead]).conn.sent = [] := by
  decide

set_option maxRecDepth 1000000 in
/-- C5, witness: the message of type 9 on a fresh connection. -/
theorem unknown_type_ignored_witness :
    HandleClient L0 World.init [unknownRead, unknownRead] =
        HandleClient L0 World.init [unknownRead] ∧
    HandleClient L0 World.init [unknownRead] = World.init :=
  unknown_type_ignored L0 World.init unknownRead [unknownRead] (by decide) (by decide)
    (by decide)

set_option maxRecDepth 1000000 in
/-- C8, at the failing input. A fully read PUT whose read-only `open` inside
`check_duplicate` fails is answered with two FAIL responses: one from
`check_duplicate`, one from `handle_put`. -/
theorem put_open_failure_two_replies :
    putScanOpenFails.res = (L0.msgSize : Nat) ∧
    (HandleClient L0 World.init [putScanOpenFails]).conn.sent =
      [{ type := FAIL, rd := zeroRecord L0 }, { type := FAIL, rd := zeroRecord L0 }] := by
  decide

set_option maxRecDepth 1000000 in
/-- C9, at the failing input. A `read` that returns 1 byte, fewer than the 133 of a
frame, is dispatched all the same: the handler appends the record found in the
buffer to the store and sends a SUCCESS response. -/
theorem short_read_is_dispatched :
    shortRead.res < (L0.msgSize : Nat) ∧
    stored L0 (HandleClient L0 World.init [shortRead]) = [sampleRecord 5 66] ∧
    (HandleClient L0 World.init [shortRead]).conn.sent =
      [{ type := SUCCESS, rd := zeroRecord L0 }] := by
  decide

set_option maxRecDepth 1000000 in
/-- C2, at the failing input. Two handlers serve PUTs with id 7; both run their
duplicate check before either appends. Both reply SUCCESS and the store ends with
two records of id 7. -/
theorem racing_puts_both_succeed :
    (runSched L0 racingPuts [0, 1, 0, 1]).threads.map
        (fun t => (t.phase, t.conn.sent.map msg.type)) =
      [(PutPhase.done, [SUCCESS]), (PutPhase.done, [SUCCESS])] ∧
    blocks L0 ((runSched L0 racingPuts [0, 1, 0, 1]).db.getD []) =
      [sampleRecord 7 65, sampleRecord 7 66] ∧
    (blocks L0 ((runSched L0 racingPuts [0, 1, 0, 1]).db.getD [])).countP
      (fun b => idOf L0 b = 7) = 2 := by
  decide

set_option maxRecDepth 1000000 in
/-- C4, at the failing input. The store holds the record with id 7 and name "A"; a
PUT with id 7 and name "B" whose first scan `read` returns -1 replies SUCCESS and
leaves two records with id 7. -/
theorem put_duplicate_after_read_error :
    stored L0 (handle_put L0 (Env.good L0) World.init (sampleRecord 7 65)) =
      [sampleRecord 7 65] ∧
    (replies (handle_put L0 (Env.good L0) World.init (sampleRecord 7 65))
      (handle_put L0 envReadFault
        (handle_put L0 (Env.good L0) World.init (sampleRecord 7 65))
        (sampleRecord 7 66))).map msg.type = [SUCCESS] ∧
    stored L0 (handle_put L0 envReadFault
        (handle_put L0 (Env.good L0) World.init (sampleRecord 7 65))
        (sampleRecord 7 66)) = [sampleRecord 7 65, sampleRecord 7 66] := by
  decide

set_option maxRecDepth 1000000 in
/-- C10, at the failing input. A PUT whose `write` transfers one byte of the record
replies FAIL and leaves that byte appended to the file. -/
theorem put_short_write_leaves_fragment :
    (replies World.init
      (handle_put L0 envShortWrite World.init (sampleRecord 7 65))).map msg.type = [FAIL] ∧
    contents (handle_put L0 envShortWrite World.init (sampleRecord 7 65)) = [65] ∧
    contents World.init = [] := by
  decide

set_option maxRecDepth 1000000 in
/-- C1, witness: two PUTs with id 7, a GET and a PUT with id 8 on a fresh store. -/
theorem sequential_uniqueness_witness :
    (stored L0 (serve L0 World.init sampleRequests)).countP
      (fun b => idOf L0 b = 7) ≤ 1 :=
  sequential_uniqueness L0 World.init sampleRequests (by decide) (by decide)
    (by decide) 7

set_option maxRecDepth 1000000 in
/-- C6, witness: PUT of id 1 then PUT of id 2 on a fresh store. -/
theorem no_false_duplicates_witness :
    (replies World.init
      (handle_put L0 (Env.good L0) World.init (sampleRecord 1 65))).map msg.type
        = [SUCCESS] ∧
    (replies (handle_put L0 (Env.good L0) World.init (sampleRecord 1 65))
      (handle_put L0 (Env.good L0)
        (handle_put L0 (Env.good L0) World.init (sampleRecord 1 65))
        (sampleRecord 2 66))).map msg.type = [SUCCESS] ∧
    sampleRecord 1 65 ∈ stored L0 (handle_put L0 (Env.good L0)
        (handle_put L0 (Env.good L0) World.init (sampleRecord 1 65))
        (sampleRecord 2 66)) ∧
    sampleRecord 2 66 ∈ stored L0 (handle_put L0 (Env.good L0)
        (handle_put L0 (Env.good L0) World.init (sampleRecord 1 65))
        (sampleRecord 2 66)) ∧
    stored L0 (handle_put L0 (Env.good L0)
        (handle_put L0 (Env.good L0) World.init (sampleRecord 1 65))
        (sampleRecord 2 66)) =
      stored L0 World.init ++ [sampleRecord 1 65, sampleRecord 2 66] :=
  no_false_duplicates L0 World.init (sampleRecord 1 65) (sampleRecord 2 66)
    (Env.good L0) (Env.good L0) (by decide) (by decide) (by decide) (by decide)
    (by decide) (by decide) (by decide) (by decide)

set_option maxRecDepth 1000000 in
/-- C7, witness: the reply to a GET for id 7 on the store holding the record with
id 7 and name "A". -/
theorem response_payload_witness :
    ((msg.mk SUCCESS (sampleRecord 7 65)).type = SUCCESS ∧
      get_loop L0 7 (reads L0 (Env.good L0) (contents worldA)) =
        some (msg.mk SUCCESS (sampleRecord 7 65)).rd) ∨
    ((msg.mk SUCCESS (sampleRecord 7 65)).type = FAIL ∧
      (msg.mk SUCCESS (sampleRecord 7 65)).rd = zeroRecord L0) :=
  (response_payload L0).2.2.2.1 (Env.good L0) worldA 7
    (msg.mk SUCCESS (sampleRecord 7 65)) (by decide)

set_option maxRecDepth 1000000 in
/-- C3, counterexample. A PUT of the record with id 7 replies SUCCESS; the GET for
id 7 that follows, whose `open` fails, replies FAIL. -/
theorem lookup_fails_when_open_fails :
    idOf L0 (sampleRecord 7 65) = 7 ∧
    (replies World.init
      (handle_put L0 (Env.good L0) World.init (sampleRecord 7 65))).map msg.type
        = [SUCCESS] ∧
    (replies (handle_put L0 (Env.good L0) World.init (sampleRecord 7 65))
      (handle_get L0 envNoRead
        (handle_put L0 (Env.good L0) World.init (sampleRecord 7 65)) 7)).map msg.type
        = [FAIL] := by
  decide

set_option maxRecDepth 1000000 in
/-- C3, witness: PUT of id 7 on a fresh store, then a PUT of id 9 cut short by its
`write`, then the GET for id 7; a GET with a failing `open`; a GET for id 42 on the
empty store. -/
theorem lookup_correct_witness :
    replies
        (serve L0 (handle_put L0 (Env.good L0) World.init (sampleRecord 7 65))
          [(envShortWrite, Request.put (sampleRecord 9 66))])
        (handle_get L0 (Env.good L0)
          (serve L0 (handle_put L0 (Env.good L0) World.init (sampleRecord 7 65))
            [(envShortWrite, Request.put (sampleRecord 9 66))])
          (idOf L0 (sampleRecord 7 65))) =
      [{ type := SUCCESS, rd := sampleRecord 7 65 }] ∧
    replies worldA (handle_get L0 envNoRead worldA 7) =
      [{ type := FAIL, rd := zeroRecord L0 }] ∧
    replies World.init (handle_get L0 (Env.good L0) World.init 42) =
      [{ type := FAIL, rd := zeroRecord L0 }] :=
  ⟨(lookup_correct L0).1 World.init (sampleRecord 7 65) (Env.good L0)
      [(envShortWrite, Request.put (sampleRecord 9 66))] (Env.good L0)
      (by decide) (by decide) rfl (by decide) rfl rfl,
    (lookup_correct L0).2.1 worldA envNoRead 7 rfl,
    (lookup_correct L0).2.2 World.init (Env.good L0) 42 (by decide)⟩

end DBServer
